import Mathlib

/-!
Verification of the sparse-to-dense data preprocessor of
`src/notebooks/feature_selection.ipynb` (class `DataPreprocessor`).

The Python source being modelled:

```python
class DataPreprocessor:
    def __init__(self, features_file, targets_file):
        self.features_file = features_file
        self.targets_file = targets_file
        self.df = None

    def _preprocess(self):
        data = []
        with open(self.features_file, 'r') as f:
            for line in f:
                active_features = line.strip().split()
                data.append(pd.Series({int(feature): 1 for feature in active_features}))
        features = pd.concat(data, axis=1).T.fillna(0).sort_index(axis=1)
        targets = pd.read_csv(self.targets_file, header=None, names=["target"])
        self.df = pd.concat([features, targets], axis=1)

    def __call__(self):
        self._preprocess()
        return self.df
```

Modelling choices:
* A text file is a list of its lines (`List String` for the feature file).
  The label file is modelled post-`read_csv` as a list of opaque scalars
  (`List α`): `pd.read_csv(..., header=None, names=["target"])` reads one
  scalar per line, in file order, and the pipeline never inspects the values.
* `int(token)` is modelled by `parsePyInt` (base-10 Python integer literal:
  optional sign, digits, single underscores allowed between digits).
  `int()` raising `ValueError` is modelled as `Option.none`.
* A cell may be missing (pandas `NaN`): cells are `Option` values.
  `fillna(0)` is applied to the feature block before the final label join,
  so feature cells of parsed rows are always present, while rows created by
  the final outer-join alignment (when the two files have different line
  counts) carry `none` cells.
* `pd.concat([features, targets], axis=1)` aligns the two blocks on their
  row indexes (both are `RangeIndex`) with an outer join: the result has
  `max` many rows and missing cells where one side is short.  It does not
  raise on a length mismatch.
* `pd.concat(data, axis=1)` with `data == []` raises
  `ValueError: No objects to concatenate` (empty feature file), and
  `pd.read_csv` on an empty file raises
  `EmptyDataError: No columns to parse from file` (empty label file); both
  are modelled as `Except.error` with the pandas message.
* Errors are modelled with `Except String`; a failed `int(token)` produces
  the `ValueError` message of CPython, which names the offending token.
-/

deriving instance DecidableEq for Except

/-- One cell of the produced table: `none` is pandas `NaN`, `some v` a value. -/
abbrev Cell := Option Nat

/-- One row of the produced table: the dense feature cells (one per feature
column, in column order) and the label cell. -/
structure Row (α : Type) where
  fvals : List Cell
  target : Option α
  deriving DecidableEq, Repr

/-- The combined table `self.df`: feature column labels (integers, ascending)
and the rows; the label column is a separate, string-named column `target`. -/
structure Table (α : Type) where
  cols : List Int
  rows : List (Row α)
  deriving DecidableEq, Repr

/-- Column names of the combined table: the integer-labelled feature columns
followed by the string-labelled `target` column appended by the final
`pd.concat([features, targets], axis=1)`. -/
inductive ColName
  | feature (idx : Int)
  | target
  deriving DecidableEq, Repr

/-- The column-name list of a table, in pandas column order. -/
def Table.columnNames {α : Type} (t : Table α) : List ColName :=
  t.cols.map ColName.feature ++ [ColName.target]

/-- Accumulating splitter for `tokenize`: walk the characters, collecting the
current token (reversed) in `cur`, emitting it at each whitespace run. -/
def splitWsAux : List Char → List Char → List (List Char)
  | [], cur => if cur = [] then [] else [cur.reverse]
  | c :: rest, cur =>
    if c.isWhitespace then
      if cur = [] then splitWsAux rest []
      else cur.reverse :: splitWsAux rest []
    else splitWsAux rest (c :: cur)

/-- Python `line.strip().split()`: split on whitespace runs (space, tab, CR,
LF), dropping empty tokens, so leading and trailing whitespace is absorbed
exactly as `strip` would. -/
def tokenize (line : String) : List String :=
  (splitWsAux line.toList []).map (fun t => String.mk t)

/-- Tail of a Python base-10 integer literal after its first digit: digits
with single underscores allowed between digits (`int("1_0") == 10`), no
trailing or doubled underscore. -/
def pyDigitTail : List Char → Bool
  | [] => true
  | ['_'] => false
  | '_' :: c :: rest => c.isDigit && pyDigitTail rest
  | c :: rest => c.isDigit && pyDigitTail rest

/-- A nonempty Python digit run: starts with a digit, then `pyDigitTail`. -/
def pyDigits : List Char → Bool
  | [] => false
  | c :: rest => c.isDigit && pyDigitTail rest

/-- Numeric value of a digit run, ignoring underscores. -/
def digitsToNat (l : List Char) : Nat :=
  l.foldl (fun acc c => if c = '_' then acc else acc * 10 + (c.toNat - 48)) 0

/-- Python `int(s)` for a whitespace-free token `s` (ASCII digits): optional
sign then a digit run; `none` models the `ValueError` raised otherwise. -/
def parsePyInt (s : String) : Option Int :=
  match s.toList with
  | '-' :: rest => if pyDigits rest then some (-(digitsToNat rest : Int)) else none
  | '+' :: rest => if pyDigits rest then some (digitsToNat rest) else none
  | l => if pyDigits l then some (digitsToNat l) else none

/-- Parse the tokens of one line left to right, as the dict comprehension
`dict((int(feature), 1) for feature in active_features)` evaluates them; the
first token on which `int` raises aborts the build, and the error carries
that token (CPython: `invalid literal for int() with base 10: tok`). -/
def parseTokens : List String → Except String (List Int)
  | [] => .ok []
  | t :: ts =>
    match parsePyInt t with
    | none => .error t
    | some k =>
      match parseTokens ts with
      | .error e => .error e
      | .ok ks => .ok (k :: ks)

/-- Parse one feature line into its list of mentioned indices (in mention
order, duplicates kept; the dict built from it is their set). -/
def parseLine (line : String) : Except String (List Int) :=
  parseTokens (tokenize line)

/-- The `for line in f` loop: parse every line in file order; the first
failing token anywhere aborts with that token. -/
def buildRecords : List String → Except String (List (List Int))
  | [] => .ok []
  | line :: rest =>
    match parseLine line with
    | .error e => .error e
    | .ok r =>
      match buildRecords rest with
      | .error e => .error e
      | .ok rs => .ok (r :: rs)

/-- The column space: union of all mentioned indices over all lines, sorted
ascending (`pd.concat(data, axis=1).T` makes the index union the columns,
`sort_index(axis=1)` sorts them). -/
def colUnion (recs : List (List Int)) : List Int :=
  (recs.flatten.dedup).insertionSort (· ≤ ·)

/-- Densify one record against the column space: `1` for every mentioned
index, `0` elsewhere (`fillna(0)`); duplicates and order of mentions are
absorbed by membership. -/
def mkFeatureRow (cols : List Int) (rec : List Int) : List Cell :=
  cols.map (fun c => some (if c ∈ rec then 1 else 0))

/-- The final `pd.concat([features, targets], axis=1)`: outer join of the
feature block and the label column on the row index, producing
`max` many rows with missing cells where either side is short. -/
def outerJoin {α : Type} (cols : List Int) (frs : List (List Cell))
    (labels : List α) : List (Row α) :=
  (List.range (max frs.length labels.length)).map fun i =>
    { fvals := (frs[i]?).getD (cols.map fun _ => none), target := labels[i]? }

/-- `DataPreprocessor._preprocess` as a function of the two file contents:
parse all feature lines, build the sorted column space, densify, read the
labels, and join by row position. -/
def preprocess {α : Type} (featureLines : List String) (labels : List α) :
    Except String (Table α) :=
  match buildRecords featureLines with
  | .error t => .error ("invalid literal for int() with base 10: " ++ t)
  | .ok recs =>
    if featureLines.isEmpty then .error "No objects to concatenate"
    else if labels.isEmpty then .error "No columns to parse from file"
    else
      let cols := colUnion recs
      .ok { cols := cols, rows := outerJoin cols (recs.map (mkFeatureRow cols)) labels }

/-- The file system the preprocessor reads from: contents of the feature
file (its lines) and of the label file (its scalars) at each path. -/
structure World (α : Type) where
  featFiles : String → List String
  labelFiles : String → List α

/-- The `DataPreprocessor` object state: the two configured paths and the
cached `self.df` (`none` before the first successful build). -/
structure DataPreprocessor (α : Type) where
  features_file : String
  targets_file : String
  df : Option (Table α)

/-- `DataPreprocessor.__init__`: store the two paths, set `self.df = None`.
A pure function of the paths alone: it does not take the `World`, so it can
read neither file. -/
def DataPreprocessor.init {α : Type} (features_file targets_file : String) :
    DataPreprocessor α :=
  { features_file := features_file, targets_file := targets_file, df := none }

/-- `DataPreprocessor.__call__`: run `_preprocess` on the current file
contents and return `self.df`.  On an exception, `self.df` is not assigned
and the error propagates. -/
def DataPreprocessor.call {α : Type} (w : World α) (s : DataPreprocessor α) :
    DataPreprocessor α × Except String (Table α) :=
  match preprocess (w.featFiles s.features_file) (w.labelFiles s.targets_file) with
  | .ok t => ({ s with df := some t }, .ok t)
  | .error e => (s, .error e)

/-- Sanity check: the concrete three-line scenario of the specification,
evaluated end to end through the model. -/
theorem preprocess_concrete_scenario :
    preprocess ["1 3", "2", "1 2 3"] [(1 : Int), -1, 1] =
    .ok { cols := [1, 2, 3],
          rows := [ { fvals := [some 1, some 0, some 1], target := some 1 },
                    { fvals := [some 0, some 1, some 0], target := some (-1) },
                    { fvals := [some 1, some 1, some 1], target := some 1 } ] } := by
  decide

/-! ### Helper lemmas -/

theorem parseTokens_error {ts : List String} {e : String}
    (h : parseTokens ts = .error e) : e ∈ ts ∧ parsePyInt e = none := by
  induction ts with
  | nil => simp [parseTokens] at h
  | cons t ts ih =>
    simp only [parseTokens] at h
    cases hp : parsePyInt t with
    | none =>
      rw [hp] at h
      injection h with h
      subst h
      exact ⟨List.mem_cons_self _ _, hp⟩
    | some k =>
      rw [hp] at h
      cases hr : parseTokens ts with
      | error e2 =>
        rw [hr] at h
        injection h with h
        subst h
        exact ⟨List.mem_cons_of_mem _ (ih hr).1, (ih hr).2⟩
      | ok ks =>
        rw [hr] at h
        simp at h

theorem parseTokens_ok_mem {ts : List String} {ks : List Int} {t : String} {k : Int}
    (h : parseTokens ts = .ok ks) (ht : t ∈ ts) (hk : parsePyInt t = some k) :
    k ∈ ks := by
  induction ts generalizing ks with
  | nil => cases ht
  | cons u ts ih =>
    simp only [parseTokens] at h
    cases hp : parsePyInt u with
    | none => rw [hp] at h; cases h
    | some m =>
      rw [hp] at h
      cases hr : parseTokens ts with
      | error e => rw [hr] at h; cases h
      | ok ms =>
        rw [hr] at h
        injection h with h
        subst h
        rcases List.mem_cons.mp ht with rfl | hmem
        · rw [hp] at hk
          injection hk with hk
          subst hk
          exact List.mem_cons_self _ _
        · exact List.mem_cons_of_mem _ (ih hr hmem)

theorem parseLine_blank {line : String} (h : tokenize line = []) :
    parseLine line = .ok [] := by
  unfold parseLine
  rw [h]
  rfl

theorem parseLine_empty : parseLine "" = .ok [] := by decide

theorem buildRecords_length {lines : List String} {recs : List (List Int)}
    (h : buildRecords lines = .ok recs) : recs.length = lines.length := by
  induction lines generalizing recs with
  | nil =>
    simp only [buildRecords] at h
    injection h with h
    subst h
    rfl
  | cons line rest ih =>
    simp only [buildRecords] at h
    cases hp : parseLine line with
    | error e => rw [hp] at h; cases h
    | ok r =>
      rw [hp] at h
      cases hr : buildRecords rest with
      | error e => rw [hr] at h; cases h
      | ok rs =>
        rw [hr] at h
        injection h with h
        subst h
        simp [ih hr]

theorem buildRecords_get {lines : List String} {recs : List (List Int)}
    (h : buildRecords lines = .ok recs) (i : Nat) :
    parseLine (lines.getD i "") = .ok (recs.getD i []) := by
  induction lines generalizing recs i with
  | nil =>
    simp only [buildRecords] at h
    injection h with h
    subst h
    simpa [List.getD] using parseLine_empty
  | cons line rest ih =>
    simp only [buildRecords] at h
    cases hp : parseLine line with
    | error e => rw [hp] at h; cases h
    | ok r =>
      rw [hp] at h
      cases hr : buildRecords rest with
      | error e => rw [hr] at h; cases h
      | ok rs =>
        rw [hr] at h
        injection h with h
        subst h
        cases i with
        | zero => simpa using hp
        | succ n => simpa using ih hr n

theorem buildRecords_error_of_first {lines : List String} {j : Nat} {tok : String}
    (hj : j < lines.length)
    (herr : parseLine (lines.getD j "") = .error tok)
    (hfirst : ∀ i, i < j → ∃ r, parseLine (lines.getD i "") = .ok r) :
    buildRecords lines = .error tok := by
  induction lines generalizing j with
  | nil => cases hj
  | cons line rest ih =>
    cases j with
    | zero =>
      simp only [List.getD] at herr
      simp only [buildRecords]
      simp at herr
      rw [herr]
    | succ n =>
      obtain ⟨r, hr⟩ := hfirst 0 (Nat.succ_pos n)
      simp only [List.getD] at hr
      simp at hr
      simp only [buildRecords]
      rw [hr]
      have hrec : buildRecords rest = .error tok := by
        refine ih (Nat.lt_of_succ_lt_succ hj) (by simpa using herr) ?_
        intro i hi
        have := hfirst (i + 1) (Nat.succ_lt_succ hi)
        simpa using this
      rw [hrec]

theorem buildRecords_ok_of_forall {lines : List String}
    (h : ∀ i, i < lines.length → ∃ r, parseLine (lines.getD i "") = .ok r) :
    ∃ recs, buildRecords lines = .ok recs := by
  induction lines with
  | nil => exact ⟨[], rfl⟩
  | cons line rest ih =>
    obtain ⟨r, hr⟩ := h 0 (Nat.succ_pos _)
    simp only [List.getD] at hr
    simp at hr
    obtain ⟨rs, hrs⟩ := ih (fun i hi => by simpa using h (i + 1) (Nat.succ_lt_succ hi))
    refine ⟨r :: rs, ?_⟩
    simp only [buildRecords]
    rw [hr, hrs]

theorem buildRecords_mem {lines : List String} {recs : List (List Int)} {k : Int}
    (h : buildRecords lines = .ok recs) :
    (∃ rec ∈ recs, k ∈ rec) ↔
      ∃ line ∈ lines, ∃ r, parseLine line = .ok r ∧ k ∈ r := by
  induction lines generalizing recs with
  | nil =>
    simp only [buildRecords] at h
    injection h with h
    subst h
    simp
  | cons line rest ih =>
    simp only [buildRecords] at h
    cases hp : parseLine line with
    | error e => rw [hp] at h; cases h
    | ok r =>
      rw [hp] at h
      cases hr : buildRecords rest with
      | error e => rw [hr] at h; cases h
      | ok rs =>
        rw [hr] at h
        injection h with h
        subst h
        constructor
        · rintro ⟨rec, hrec, hkrec⟩
          rcases List.mem_cons.mp hrec with rfl | hmem
          · exact ⟨line, List.mem_cons_self _ _, rec, hp, hkrec⟩
          · obtain ⟨l2, hl2, r2, hp2, hk2⟩ := (ih hr).mp ⟨rec, hmem, hkrec⟩
            exact ⟨l2, List.mem_cons_of_mem _ hl2, r2, hp2, hk2⟩
        · rintro ⟨l2, hl2, r2, hp2, hk2⟩
          rcases List.mem_cons.mp hl2 with rfl | hmem
          · rw [hp] at hp2
            injection hp2 with hp2
            subst hp2
            exact ⟨_, List.mem_cons_self _ _, hk2⟩
          · obtain ⟨rec, hrec, hkrec⟩ := (ih hr).mpr ⟨l2, hmem, r2, hp2, hk2⟩
            exact ⟨rec, List.mem_cons_of_mem _ hrec, hkrec⟩

theorem mem_colUnion {recs : List (List Int)} {k : Int} :
    k ∈ colUnion recs ↔ ∃ rec ∈ recs, k ∈ rec := by
  unfold colUnion
  rw [(List.perm_insertionSort _ _).mem_iff, List.mem_dedup, List.mem_flatten]

theorem colUnion_sorted (recs : List (List Int)) :
    List.Sorted (fun a b => a < b) (colUnion recs) := by
  have hs : List.Sorted (fun a b => a ≤ b) (colUnion recs) :=
    List.sorted_insertionSort _ _
  have hn : (colUnion recs).Nodup :=
    ((List.perm_insertionSort _ _).nodup_iff).mpr (List.nodup_dedup _)
  exact hs.lt_of_le hn

theorem outerJoin_length {α : Type} (cols : List Int) (frs : List (List Cell))
    (labels : List α) :
    (outerJoin cols frs labels).length = max frs.length labels.length := by
  simp [outerJoin]

theorem outerJoin_getElem {α : Type} (cols : List Int) (frs : List (List Cell))
    (labels : List α) (i : Nat) (hi : i < max frs.length labels.length) :
    (outerJoin cols frs labels)[i]? =
      some { fvals := (frs[i]?).getD (cols.map fun _ => none), target := labels[i]? } := by
  simp [outerJoin, List.getElem?_map, List.getElem?_range hi]

theorem preprocess_ok {α : Type} {lines : List String} {labels : List α}
    {recs : List (List Int)}
    (hrec : buildRecords lines = .ok recs) (hl : lines ≠ []) (hlab : labels ≠ []) :
    preprocess lines labels =
      .ok { cols := colUnion recs,
            rows := outerJoin (colUnion recs)
              (recs.map (mkFeatureRow (colUnion recs))) labels } := by
  unfold preprocess
  rw [hrec]
  simp [List.isEmpty_iff, hl, hlab]

theorem preprocess_row_getElem {α : Type} {cols : List Int} {recs : List (List Int)}
    {labels : List α} {i : Nat} (hi : i < recs.length) :
    (outerJoin cols (recs.map (mkFeatureRow cols)) labels)[i]? =
      some { fvals := mkFeatureRow cols (recs.getD i []), target := labels[i]? } := by
  have hmax : i < max (recs.map (mkFeatureRow cols)).length labels.length := by
    rw [List.length_map]
    exact Nat.lt_of_lt_of_le hi (le_max_left _ _)
  rw [outerJoin_getElem _ _ _ _ hmax, List.getElem?_map, List.getElem?_eq_getElem hi]
  simp [List.getD_eq_getElem?_getD, List.getElem?_eq_getElem hi]

theorem labels_ne_nil {α : Type} {lines : List String} {labels : List α}
    (hlen : labels.length = lines.length) (hne : lines ≠ []) : labels ≠ [] := by
  intro hnil
  subst hnil
  exact hne (List.length_eq_zero.mp hlen.symm)

/-- C3: for every valid input pair (every feature line parses and the label
count equals the feature-line count), row order is preserved end-to-end: the
table has exactly one row per feature-file line, row `i` carries the scalar
on line `i` of the label file as its label, and its feature cells are the
densification of exactly the index list parsed from line `i` of the feature
file. -/
theorem preprocess_row_order_preserved {α : Type} (lines : List String)
    (labels : List α) (recs : List (List Int))
    (hrec : buildRecords lines = .ok recs)
    (hlen : labels.length = lines.length) (hne : lines ≠ []) :
    ∃ tb, preprocess lines labels = .ok tb ∧
      tb.rows.length = lines.length ∧
      ∀ i, i < lines.length →
        parseLine (lines.getD i "") = .ok (recs.getD i []) ∧
        tb.rows[i]? =
          some { fvals := mkFeatureRow tb.cols (recs.getD i []),
                 target := labels[i]? } := by
  have hrl := buildRecords_length hrec
  have hlab : labels ≠ [] := labels_ne_nil hlen hne
  refine ⟨_, preprocess_ok hrec hne hlab, ?_, ?_⟩
  · simp [outerJoin_length, List.length_map, hrl, hlen]
  · intro i hi
    exact ⟨buildRecords_get hrec i,
      preprocess_row_getElem (hrl ▸ hi)⟩

theorem preprocess_row_order_preserved_witness :
    ∃ tb, preprocess ["1 3", "2"] [(1 : Int), -1] = .ok tb ∧
      tb.rows.length = (["1 3", "2"] : List String).length ∧
      ∀ i, i < (["1 3", "2"] : List String).length →
        parseLine ((["1 3", "2"] : List String).getD i "") =
          .ok (([[1, 3], [2]] : List (List Int)).getD i []) ∧
        tb.rows[i]? =
          some { fvals := mkFeatureRow tb.cols (([[1, 3], [2]] : List (List Int)).getD i []),
                 target := [(1 : Int), -1][i]? } :=
  preprocess_row_order_preserved ["1 3", "2"] [(1 : Int), -1] [[1, 3], [2]]
    (by decide) (by decide) (by decide)

/-- C4: for every valid input pair, the feature columns of the produced table
are strictly ascending (hence distinct) and a value is a column exactly when
it is an index parsed from some line of the feature file: the exact union,
no extra and no missing columns. -/
theorem preprocess_cols_exact_union {α : Type} (lines : List String)
    (labels : List α) (recs : List (List Int))
    (hrec : buildRecords lines = .ok recs)
    (hlen : labels.length = lines.length) (hne : lines ≠ []) :
    ∃ tb, preprocess lines labels = .ok tb ∧
      List.Sorted (fun a b => a < b) tb.cols ∧
      ∀ k : Int, k ∈ tb.cols ↔ ∃ line ∈ lines, ∃ r, parseLine line = .ok r ∧ k ∈ r := by
  have hlab : labels ≠ [] := labels_ne_nil hlen hne
  exact ⟨_, preprocess_ok hrec hne hlab, colUnion_sorted recs,
    fun k => mem_colUnion.trans (buildRecords_mem hrec)⟩

theorem preprocess_cols_exact_union_witness :
    ∃ tb, preprocess ["3 1", "2 3"] [(1 : Int), -1] = .ok tb ∧
      List.Sorted (fun a b => a < b) tb.cols ∧
      ∀ k : Int, k ∈ tb.cols ↔
        ∃ line ∈ (["3 1", "2 3"] : List String), ∃ r, parseLine line = .ok r ∧ k ∈ r :=
  preprocess_cols_exact_union ["3 1", "2 3"] [(1 : Int), -1] [[3, 1], [2, 3]]
    (by decide) (by decide) (by decide)

/-- C5: for every valid input pair, each cell of row `i` is `1` exactly when
that cell's column index is a member of the index list parsed from line `i`
of the feature file, and `0` otherwise; membership is insensitive to the
order of mentions and to duplicate mentions within the line. -/
theorem preprocess_cell_values {α : Type} (lines : List String)
    (labels : List α) (recs : List (List Int))
    (hrec : buildRecords lines = .ok recs)
    (hlen : labels.length = lines.length) (hne : lines ≠ []) :
    ∃ tb, preprocess lines labels = .ok tb ∧
      ∀ i, i < lines.length → ∃ row, tb.rows[i]? = some row ∧
        ∀ j, j < tb.cols.length →
          row.fvals[j]? =
            some (some (if tb.cols.getD j 0 ∈ recs.getD i [] then 1 else 0)) := by
  have hrl := buildRecords_length hrec
  have hlab : labels ≠ [] := labels_ne_nil hlen hne
  refine ⟨_, preprocess_ok hrec hne hlab, ?_⟩
  intro i hi
  refine ⟨_, preprocess_row_getElem (hrl ▸ hi), ?_⟩
  intro j hj
  simp only [mkFeatureRow, List.getElem?_map]
  rw [List.getElem?_eq_getElem hj]
  simp [List.getD_eq_getElem?_getD, List.getElem?_eq_getElem hj]

theorem preprocess_cell_values_witness :
    ∃ tb, preprocess ["3 1 1 3", "2"] [(1 : Int), -1] = .ok tb ∧
      ∀ i, i < (["3 1 1 3", "2"] : List String).length → ∃ row, tb.rows[i]? = some row ∧
        ∀ j, j < tb.cols.length →
          row.fvals[j]? =
            some (some (if tb.cols.getD j 0 ∈ (([[3, 1, 1, 3], [2]] : List (List Int)).getD i [])
              then 1 else 0)) :=
  preprocess_cell_values ["3 1 1 3", "2"] [(1 : Int), -1] [[3, 1, 1, 3], [2]]
    (by decide) (by decide) (by decide)

/-- C8: for every valid input pair, the label lives in a single column whose
name `ColName.target` is distinct from every numeric feature-column name
`ColName.feature k` and occurs exactly once among the column names, and each
row's label cell is the corresponding label-file scalar, carried through at
an opaque type `α` (so no value can be normalized or re-encoded). -/
theorem preprocess_target_column {α : Type} (lines : List String)
    (labels : List α) (recs : List (List Int))
    (hrec : buildRecords lines = .ok recs)
    (hlen : labels.length = lines.length) (hne : lines ≠ []) :
    ∃ tb, preprocess lines labels = .ok tb ∧
      tb.columnNames.count ColName.target = 1 ∧
      (∀ k : Int, ColName.feature k ≠ ColName.target) ∧
      ∀ i, i < lines.length → ∃ row, tb.rows[i]? = some row ∧ row.target = labels[i]? := by
  have hrl := buildRecords_length hrec
  have hlab : labels ≠ [] := labels_ne_nil hlen hne
  refine ⟨_, preprocess_ok hrec hne hlab, ?_, fun k => by simp, ?_⟩
  · simp [Table.columnNames, List.count_append, List.count_singleton,
      List.count_eq_zero, List.mem_map]
  · intro i hi
    exact ⟨_, preprocess_row_getElem (hrl ▸ hi), rfl⟩

theorem preprocess_target_column_witness :
    ∃ tb, preprocess ["1 2", "2"] [(1 : Int), -1] = .ok tb ∧
      tb.columnNames.count ColName.target = 1 ∧
      (∀ k : Int, ColName.feature k ≠ ColName.target) ∧
      ∀ i, i < (["1 2", "2"] : List String).length →
        ∃ row, tb.rows[i]? = some row ∧ row.target = [(1 : Int), -1][i]? :=
  preprocess_target_column ["1 2", "2"] [(1 : Int), -1] [[1, 2], [2]]
    (by decide) (by decide) (by decide)

/-- C1 counterexample: a one-line feature file against a two-line label file
(mismatched line counts) does not raise: the build returns a combined table,
the outer join padding the surplus label row with a missing feature cell. -/
theorem preprocess_mismatch_no_error :
    preprocess ["1"] [(1 : Int), -1] =
      .ok { cols := [1],
            rows := [{ fvals := [some 1], target := some 1 },
                     { fvals := [none], target := some (-1) }] } := by
  decide

/-- C1 amended: on mismatched line counts (both files nonempty and every
feature line parsing), the build does not raise and returns a combined table
of `max` many rows, in which rows beyond the feature-file line count have
every feature cell missing and rows beyond the label-file line count have a
missing label cell. -/
theorem preprocess_mismatch_outer_join {α : Type} (lines : List String)
    (labels : List α) (recs : List (List Int))
    (hrec : buildRecords lines = .ok recs)
    (hne : lines ≠ []) (hlne : labels ≠ [])
    (hmm : lines.length ≠ labels.length) :
    ∃ tb, preprocess lines labels = .ok tb ∧
      tb.rows.length = max lines.length labels.length ∧
      (∀ i, lines.length ≤ i → i < tb.rows.length →
        ∃ row, tb.rows[i]? = some row ∧ row.fvals = tb.cols.map (fun _ => none)) ∧
      (∀ i, labels.length ≤ i → i < tb.rows.length →
        ∃ row, tb.rows[i]? = some row ∧ row.target = none) := by
  have hrl := buildRecords_length hrec
  refine ⟨_, preprocess_ok hrec hne hlne, ?_, ?_, ?_⟩
  · simp [outerJoin_length, List.length_map, hrl]
  · intro i hge hlt
    have hmax : i < max (recs.map (mkFeatureRow (colUnion recs))).length labels.length := by
      simpa [outerJoin_length] using hlt
    have hnone : (recs.map (mkFeatureRow (colUnion recs)))[i]? = none :=
      List.getElem?_eq_none (by simpa [List.length_map, hrl] using hge)
    refine ⟨_, outerJoin_getElem _ _ _ _ hmax, ?_⟩
    simp [hnone]
  · intro i hge hlt
    have hmax : i < max (recs.map (mkFeatureRow (colUnion recs))).length labels.length := by
      simpa [outerJoin_length] using hlt
    refine ⟨_, outerJoin_getElem _ _ _ _ hmax, ?_⟩
    simp [List.getElem?_eq_none hge]

theorem preprocess_mismatch_outer_join_witness :
    ∃ tb, preprocess ["1"] [(1 : Int), -1] = .ok tb ∧
      tb.rows.length = max (["1"] : List String).length ([(1 : Int), -1]).length ∧
      (∀ i, (["1"] : List String).length ≤ i → i < tb.rows.length →
        ∃ row, tb.rows[i]? = some row ∧ row.fvals = tb.cols.map (fun _ => none)) ∧
      (∀ i, ([(1 : Int), -1]).length ≤ i → i < tb.rows.length →
        ∃ row, tb.rows[i]? = some row ∧ row.target = none) :=
  preprocess_mismatch_outer_join ["1"] [(1 : Int), -1] [[1]]
    (by decide) (by decide) (by decide) (by decide)

/-- C2: if line `j` of the feature file is the first line containing a token
on which `int` raises, the build aborts with the `ValueError` message naming
that token — a token of the offending line, the first one there that does
not parse — and produces no table. -/
theorem preprocess_bad_token_fatal {α : Type} (lines : List String)
    (labels : List α) (j : Nat) (tok : String)
    (hj : j < lines.length)
    (herr : parseLine (lines.getD j "") = .error tok)
    (hfirst : ∀ i, i < j → ∃ r, parseLine (lines.getD i "") = .ok r) :
    preprocess lines labels =
      .error ("invalid literal for int() with base 10: " ++ tok) ∧
    tok ∈ tokenize (lines.getD j "") ∧ parsePyInt tok = none := by
  have hb := buildRecords_error_of_first hj herr hfirst
  have herr2 : parseTokens (tokenize (lines.getD j "")) = .error tok := herr
  have htoks := parseTokens_error herr2
  refine ⟨?_, htoks.1, htoks.2⟩
  unfold preprocess
  rw [hb]

theorem preprocess_bad_token_fatal_witness :
    preprocess ["1 abc"] [(1 : Int)] =
      .error ("invalid literal for int() with base 10: " ++ "abc") ∧
    "abc" ∈ tokenize ((["1 abc"] : List String).getD 0 "") ∧ parsePyInt "abc" = none :=
  preprocess_bad_token_fatal ["1 abc"] [(1 : Int)] 0 "abc" (by decide) (by decide)
    (fun i hi => absurd hi (Nat.not_lt_zero i))

/-- C9: a whitespace-only feature line does not make the build fail: in an
input pair whose line `j` tokenizes to no tokens, every other line parses
and the label count matches, the build succeeds and row `j` has cell `0` in
every feature column. -/
theorem preprocess_blank_line_zero_row {α : Type} (lines : List String)
    (labels : List α) (j : Nat)
    (hj : j < lines.length)
    (hblank : tokenize (lines.getD j "") = [])
    (hok : ∀ i, i < lines.length → i ≠ j → ∃ r, parseLine (lines.getD i "") = .ok r)
    (hlen : labels.length = lines.length) :
    ∃ tb, preprocess lines labels = .ok tb ∧
      ∃ row, tb.rows[j]? = some row ∧ row.fvals = tb.cols.map (fun _ => some 0) := by
  have hall : ∀ i, i < lines.length → ∃ r, parseLine (lines.getD i "") = .ok r := by
    intro i hi
    by_cases hij : i = j
    · subst hij
      exact ⟨[], parseLine_blank hblank⟩
    · exact hok i hi hij
  obtain ⟨recs, hrec⟩ := buildRecords_ok_of_forall hall
  have hrl := buildRecords_length hrec
  have hne : lines ≠ [] := by
    intro h
    subst h
    exact absurd hj (Nat.not_lt_zero j)
  have hlab := labels_ne_nil hlen hne
  have hrj : recs.getD j [] = [] := by
    have h1 := buildRecords_get hrec j
    rw [parseLine_blank hblank] at h1
    injection h1 with h1
    exact h1.symm
  refine ⟨_, preprocess_ok hrec hne hlab, _, preprocess_row_getElem (hrl ▸ hj), ?_⟩
  show mkFeatureRow (colUnion recs) (recs.getD j []) = (colUnion recs).map (fun _ => some 0)
  rw [hrj]
  simp [mkFeatureRow]

theorem preprocess_blank_line_zero_row_witness :
    ∃ tb, preprocess ["1 3", "   ", "2"] [(1 : Int), -1, 1] = .ok tb ∧
      ∃ row, tb.rows[1]? = some row ∧ row.fvals = tb.cols.map (fun _ => some 0) :=
  preprocess_blank_line_zero_row ["1 3", "   ", "2"] [(1 : Int), -1, 1] 1
    (by decide) (by decide)
    (by
      intro i hi hij
      have hi3 : i < 3 := by simpa using hi
      interval_cases i
      · exact ⟨[1, 3], by decide⟩
      · exact absurd rfl hij
      · exact ⟨[2], by decide⟩)
    (by decide)

/-- C10: parsed token values are not validated for positivity or bounds: any
token of any line that parses to an integer `k` — zero and negative values
included — makes `k` a feature column of the produced table. -/
theorem preprocess_nonpositive_index_accepted {α : Type} (lines : List String)
    (labels : List α) (recs : List (List Int)) (i : Nat) (tok : String) (k : Int)
    (hi : i < lines.length)
    (hrec : buildRecords lines = .ok recs)
    (htok : tok ∈ tokenize (lines.getD i ""))
    (hk : parsePyInt tok = some k)
    (hlen : labels.length = lines.length) :
    ∃ tb, preprocess lines labels = .ok tb ∧ k ∈ tb.cols := by
  have hne : lines ≠ [] := by
    intro h
    subst h
    exact absurd hi (Nat.not_lt_zero i)
  have hlab := labels_ne_nil hlen hne
  have hrl := buildRecords_length hrec
  have hpl : parseTokens (tokenize (lines.getD i "")) = .ok (recs.getD i []) :=
    buildRecords_get hrec i
  have hkmem : k ∈ recs.getD i [] := parseTokens_ok_mem hpl htok hk
  have hrecmem : recs.getD i [] ∈ recs := by
    rw [List.getD_eq_getElem?_getD, List.getElem?_eq_getElem (hrl ▸ hi)]
    simpa using List.getElem_mem (hrl ▸ hi)
  exact ⟨_, preprocess_ok hrec hne hlab, mem_colUnion.mpr ⟨_, hrecmem, hkmem⟩⟩

theorem preprocess_nonpositive_index_accepted_witness :
    ∃ tb, preprocess ["1 -5"] [(1 : Int)] = .ok tb ∧ (-5 : Int) ∈ tb.cols :=
  preprocess_nonpositive_index_accepted ["1 -5"] [(1 : Int)] [[1, -5]] 0 "-5" (-5)
    (by decide) (by decide) (by decide) (by decide) (by decide)

/-- C6: `__call__` is idempotent and deterministic: invoking it again on the
object returned by a first invocation, against the same unchanged files,
returns exactly the same object state and the same result table; `Table`
equality is structural — same columns in the same order, same shape, same
cell values — and determinism across runs is the purity of `call` in `w`. -/
theorem call_idempotent {α : Type} (w : World α) (s : DataPreprocessor α) :
    DataPreprocessor.call w (DataPreprocessor.call w s).1 = DataPreprocessor.call w s := by
  unfold DataPreprocessor.call
  cases h : preprocess (w.featFiles s.features_file) (w.labelFiles s.targets_file) with
  | ok t => simp [h]
  | error e => simp [h]

/-- C7: `__init__` only stores the two paths and sets `self.df = None`: the
constructed object is in the unbuilt state with no dataset cached, and
`DataPreprocessor.init` is a function of the two path strings alone — it
does not take the `World` of file contents, so it can read neither file. -/
theorem init_unbuilt {α : Type} (ff tf : String) :
    (@DataPreprocessor.init α ff tf).df = none ∧
    (@DataPreprocessor.init α ff tf).features_file = ff ∧
    (@DataPreprocessor.init α ff tf).targets_file = tf :=
  ⟨rfl, rfl, rfl⟩
